import Mathlib

/-!
# python-nss: `src/py_nspr_common.h`

A shallow embedding of the line-tuple formatting macros and of the
rich-comparison dispatch macro of `py_nspr_common.h`, with the properties
the specification states about them.

Conventions of the embedding.

* A `PyObject *` list of format tuples (`dst_fmt_tuples`, `src_fmt_tuples`)
  is a `List LineEntry`; a pointer variable that the code tests against
  `NULL` or clears with `Py_CLEAR` is an `Option`, `none` being `NULL`.
* The macros are statements that either fall through or execute
  `goto fail`; the control outcome is a `Ctl`.
* The functions the macros call but that are not defined in this header
  (`line_fmt_tuple`, `fmt_label`, `obj_to_hex`,
  `secitem_integer_format_lines`, the `format_lines` method, and the outcome
  of `PyList_Append`'s allocation) are the fields of an environment `Env`;
  a `NULL` return is `none`.
* `level` is a C `int`, an integer between `INT_MIN` and `INT_MAX`. The only
  arithmetic on it is the `level+1` of `FMT_SEC_INT_OBJ_APPEND_AND_CLEAR`,
  modelled by `int_add`, the 32-bit two's-complement sum the compiled code
  computes (it wraps from `INT_MAX` to `INT_MIN`).
* Reference counts are not modelled.
-/

namespace PyNss

/-! ## Data model -/

/-- Modelled from the spec: the format tuple built by `line_fmt_tuple` and
`fmt_label`, whose layout is not declared in this header. The specification
describes a line entry as an (indentation-level, optional-label,
value-or-text) triple. -/
structure LineEntry where
  level : Int
  label : Option String
  value : Option String
deriving DecidableEq, Repr

/-- Control outcome of a statement macro: `next` when control falls through
to the statement after the macro, `fail` when the macro executed
`goto fail`. -/
inductive Ctl where
  | next
  | fail
deriving DecidableEq, Repr

/-- The functions called by the macros and defined elsewhere. `none` stands
for a `NULL` return. `list_can_grow dst x` tells whether `PyList_Append`
manages to grow `dst` by `x`. -/
structure Env (Obj : Type) where
  line_fmt_tuple : Int → Option String → Option Obj → Option LineEntry
  fmt_label : Int → Option String → Option LineEntry
  list_can_grow : List LineEntry → LineEntry → Bool
  format_lines : Obj → Int → Option (List LineEntry)
  obj_to_hex : Option Obj → Int → String → Option (List Obj)
  secitem_integer_format_lines : Obj → Int → Option (List LineEntry)

/-- Constant `OCTETS_PER_LINE_DEFAULT`, line 59. -/
def OCTETS_PER_LINE_DEFAULT : Int := 16

/-- Constant `HEX_SEPARATOR_DEFAULT`, line 60. -/
def HEX_SEPARATOR_DEFAULT : String := ":"

/-! ## C `int` arithmetic -/

/-- Largest value of a 32-bit C `int`. -/
def INT_MAX : Int := 2147483647

/-- Smallest value of a 32-bit C `int`. -/
def INT_MIN : Int := -2147483648

/-- Addition of two C `int`s as the compiled code computes it on a 32-bit
two's-complement `int`: the sum modulo `2^32`, taken between `INT_MIN` and
`INT_MAX`. -/
def int_add (a b : Int) : Int :=
  (a + b + 2147483648) % 4294967296 - 2147483648

/-! ## The CPython list primitive -/

/-- CPython `PyList_Append(list, item)`: on success the item is added at the end and
`0` is returned; on failure the list is left as it was and `-1` is
returned. -/
def PyList_Append {Obj : Type} (env : Env Obj) (list : List LineEntry) (item : LineEntry) :
    List LineEntry × Int :=
  if env.list_can_grow list item then (list ++ [item], 0) else (list, -1)

/-! ## The formatting macros -/

/-- Macro `FMT_OBJ_AND_APPEND(dst_fmt_tuples, label, src_obj, level, fail)`,
lines 62-73. Returns the control outcome and the accumulator. -/
def FMT_OBJ_AND_APPEND {Obj : Type} (env : Env Obj) (dst_fmt_tuples : List LineEntry)
    (label : Option String) (src_obj : Option Obj) (level : Int) : Ctl × List LineEntry :=
  match env.line_fmt_tuple level label src_obj with
  | none => (Ctl.fail, dst_fmt_tuples)
  | some fmt_tuple =>
    let r := PyList_Append env dst_fmt_tuples fmt_tuple
    if r.2 ≠ 0 then (Ctl.fail, r.1) else (Ctl.next, r.1)

/-- Macro `FMT_LABEL_AND_APPEND(dst_fmt_tuples, label, level, fail)`, lines 75-86. -/
def FMT_LABEL_AND_APPEND {Obj : Type} (env : Env Obj) (dst_fmt_tuples : List LineEntry)
    (label : Option String) (level : Int) : Ctl × List LineEntry :=
  match env.fmt_label level label with
  | none => (Ctl.fail, dst_fmt_tuples)
  | some fmt_tuple =>
    let r := PyList_Append env dst_fmt_tuples fmt_tuple
    if r.2 ≠ 0 then (Ctl.fail, r.1) else (Ctl.next, r.1)

/-- State after a macro that takes an accumulator and a list variable it
clears: the control outcome, the accumulator, and the list variable. -/
structure TuplesOut where
  ctl : Ctl
  dst_fmt_tuples : List LineEntry
  src_fmt_tuples : Option (List LineEntry)
deriving DecidableEq, Repr

/-- The `for` loop of `APPEND_LINE_TUPLES_AND_CLEAR`, lines 94-97, over the
items `src_fmt_tuples[i]`, `i = 0 .. len-1`: each is handed to
`PyList_Append`, whose return value the loop does not look at. -/
def appendLineTuplesLoop {Obj : Type} (env : Env Obj) :
    List LineEntry → List LineEntry → List LineEntry
  | dst_fmt_tuples, [] => dst_fmt_tuples
  | dst_fmt_tuples, src_obj :: rest =>
    appendLineTuplesLoop env (PyList_Append env dst_fmt_tuples src_obj).1 rest

/-- Macro `APPEND_LINE_TUPLES_AND_CLEAR(dst_fmt_tuples, src_fmt_tuples, fail)`,
lines 88-100. The macro body never mentions `fail`. -/
def APPEND_LINE_TUPLES_AND_CLEAR {Obj : Type} (env : Env Obj) (dst_fmt_tuples : List LineEntry)
    (src_fmt_tuples : Option (List LineEntry)) : TuplesOut :=
  match src_fmt_tuples with
  | none => ⟨Ctl.next, dst_fmt_tuples, none⟩
  | some src => ⟨Ctl.next, appendLineTuplesLoop env dst_fmt_tuples src, none⟩

/-- State after `APPEND_LINES_AND_CLEAR`: control outcome, accumulator, the
`src_lines` variable, and (as a record of what the loop did) the items that
were handed to `line_fmt_tuple`, in order. -/
structure LinesOut (Obj : Type) where
  ctl : Ctl
  dst_fmt_tuples : List LineEntry
  src_lines : Option (List Obj)
  converted : List Obj

/-- The `for` loop of `APPEND_LINES_AND_CLEAR`, lines 108-112, over the
items `src_lines[i]`, `i = 0 .. len-1`; `converted` records the items
already handed to `line_fmt_tuple`. The loop stops at the first
`goto fail` of `FMT_OBJ_AND_APPEND`. -/
def appendLinesLoop {Obj : Type} (env : Env Obj) (level : Int) :
    List LineEntry → List Obj → List Obj → Ctl × List LineEntry × List Obj
  | dst_fmt_tuples, converted, [] => (Ctl.next, dst_fmt_tuples, converted)
  | dst_fmt_tuples, converted, src_obj :: rest =>
    match FMT_OBJ_AND_APPEND env dst_fmt_tuples none (some src_obj) level with
    | (Ctl.fail, dst) => (Ctl.fail, dst, converted ++ [src_obj])
    | (Ctl.next, dst) => appendLinesLoop env level dst (converted ++ [src_obj]) rest

/-- Macro `APPEND_LINES_AND_CLEAR(dst_fmt_tuples, src_lines, level, fail)`,
lines 102-115. `src_lines` is cleared only when the loop ran to its end. -/
def APPEND_LINES_AND_CLEAR {Obj : Type} (env : Env Obj) (dst_fmt_tuples : List LineEntry)
    (src_lines : Option (List Obj)) (level : Int) : LinesOut Obj :=
  match src_lines with
  | none => ⟨Ctl.next, dst_fmt_tuples, none, []⟩
  | some items =>
    match appendLinesLoop env level dst_fmt_tuples [] items with
    | (Ctl.fail, dst, conv) => ⟨Ctl.fail, dst, some items, conv⟩
    | (Ctl.next, dst, conv) => ⟨Ctl.next, dst, none, conv⟩

/-- Macro `CALL_FORMAT_LINES_AND_APPEND(dst_fmt_tuples, obj, level, fail)`,
lines 117-128. `PyObject_CallMethod(obj, "format_lines", "(i)", level)` is
`env.format_lines obj level`. -/
def CALL_FORMAT_LINES_AND_APPEND {Obj : Type} (env : Env Obj) (dst_fmt_tuples : List LineEntry)
    (obj : Obj) (level : Int) : Ctl × List LineEntry :=
  match env.format_lines obj level with
  | none => (Ctl.fail, dst_fmt_tuples)
  | some obj_line_fmt_tuples =>
    let r := APPEND_LINE_TUPLES_AND_CLEAR env dst_fmt_tuples (some obj_line_fmt_tuples)
    (r.ctl, r.dst_fmt_tuples)

/-- State after a macro that also clears its `obj` argument. -/
structure ObjOut (Obj : Type) where
  ctl : Ctl
  dst_fmt_tuples : List LineEntry
  obj : Option Obj

/-- Macro `APPEND_OBJ_TO_HEX_LINES_AND_CLEAR(dst_fmt_tuples, obj, level, fail)`,
lines 131-141. -/
def APPEND_OBJ_TO_HEX_LINES_AND_CLEAR {Obj : Type} (env : Env Obj)
    (dst_fmt_tuples : List LineEntry) (obj : Option Obj) (level : Int) : ObjOut Obj :=
  match env.obj_to_hex obj OCTETS_PER_LINE_DEFAULT HEX_SEPARATOR_DEFAULT with
  | none => ⟨Ctl.fail, dst_fmt_tuples, obj⟩
  | some obj_lines =>
    let r := APPEND_LINES_AND_CLEAR env dst_fmt_tuples (some obj_lines) level
    ⟨r.ctl, r.dst_fmt_tuples, none⟩

/-- Macro `FMT_SEC_INT_OBJ_APPEND_AND_CLEAR(dst_fmt_tuples, label, obj, level, fail)`,
lines 143-154. `obj` is dereferenced (`&item->item`), so it is not `NULL`
on entry. The `level+1` of line 149 is a C `int` addition. -/
def FMT_SEC_INT_OBJ_APPEND_AND_CLEAR {Obj : Type} (env : Env Obj)
    (dst_fmt_tuples : List LineEntry) (label : Option String) (obj : Obj) (level : Int) :
    ObjOut Obj :=
  match FMT_LABEL_AND_APPEND env dst_fmt_tuples label level with
  | (Ctl.fail, dst) => ⟨Ctl.fail, dst, some obj⟩
  | (Ctl.next, dst) =>
    match env.secitem_integer_format_lines obj (int_add level 1) with
    | none => ⟨Ctl.fail, dst, some obj⟩
    | some obj_lines =>
      let r := APPEND_LINE_TUPLES_AND_CLEAR env dst (some obj_lines)
      ⟨r.ctl, r.dst_fmt_tuples, none⟩

/-! ## Rich comparison dispatch -/

/-- CPython's rich comparison opcodes (`object.h`). -/
def Py_LT : Int := 0
/-- CPython's `Py_LE`. -/
def Py_LE : Int := 1
/-- CPython's `Py_EQ`. -/
def Py_EQ : Int := 2
/-- CPython's `Py_NE`. -/
def Py_NE : Int := 3
/-- CPython's `Py_GT`. -/
def Py_GT : Int := 4
/-- CPython's `Py_GE`. -/
def Py_GE : Int := 5

/-- Macro `RETURN_COMPARE_RESULT(op, cmp_result)`, lines 234-270: `true` for
`Py_RETURN_TRUE`, `false` for `Py_RETURN_FALSE`. Every `case` returns, so
there is no fall-through between cases; an `op` matching no case reaches the
final `Py_RETURN_FALSE`. -/
def RETURN_COMPARE_RESULT (op : Int) (cmp_result : Int) : Bool :=
  if op = Py_LT then
    (if cmp_result < 0 then true else false)
  else if op = Py_LE then
    (if cmp_result ≤ 0 then true else false)
  else if op = Py_EQ then
    (if cmp_result = 0 then true else false)
  else if op = Py_NE then
    (if cmp_result ≠ 0 then true else false)
  else if op = Py_GT then
    (if cmp_result > 0 then true else false)
  else if op = Py_GE then
    (if cmp_result ≥ 0 then true else false)
  else
    false

/-! ## The hex-dump renderer -/

/-- Modelled from the spec: one hexadecimal digit of an octet group, in
lower case. The renderer `obj_to_hex` is defined outside this header. -/
def hexDigit (n : Nat) : Char :=
  if n < 10 then Char.ofNat (48 + n) else Char.ofNat (87 + n)

/-- Modelled from the spec: the octet group of one byte, "the two-hex-digit
textual rendering of one byte in the hex-dump renderer". -/
def hexOctet (b : Fin 256) : String :=
  String.mk [hexDigit (b.val / 16), hexDigit (b.val % 16)]

/-- Modelled from the spec: the bytes of `obj_to_hex`'s output lines. While
bytes remain, a line takes the next `W` of them ("each output line contains
exactly `octets_per_line` octets except possibly the last, which contains
the remainder"). The first argument bounds the number of lines. -/
def octetChunks (W : Nat) : Nat → List (Fin 256) → List (List (Fin 256))
  | 0, _ => []
  | _ + 1, [] => []
  | fuel + 1, b :: bs => (b :: bs).take W :: octetChunks W fuel ((b :: bs).drop W)

/-- Modelled from the spec: the octet groups of each output line of
`obj_to_hex`, line by line. The bound `B.length` on the number of lines is
never reached before the bytes run out when `W ≥ 1`. -/
def hex_groups (B : List (Fin 256)) (W : Nat) : List (List String) :=
  (octetChunks W B.length B).map (fun line => line.map hexOctet)

/-- Modelled from the spec: `obj_to_hex(obj, octets_per_line, separator)`,
the spec's `to_hex_lines(bytes, octets_per_line, separator)`, defined outside
this header: the ordered text lines, the octet groups of each line joined
by the separator. -/
def obj_to_hex (B : List (Fin 256)) (W : Nat) (sep : String) : List String :=
  (hex_groups B W).map (fun groups => sep.intercalate groups)

/-! ## A concrete environment -/

/-- Sample Python values used to instantiate the environment: a byte
buffer, a text value, and a value whose self-description fails. -/
inductive SampleObj where
  | data (bytes : List (Fin 256))
  | text (s : String)
  | unprintable
deriving DecidableEq, Repr

/-- Modelled from the spec: `line_fmt_tuple(level, label, value)`, defined
outside this header, builds the line entry (level, label, value) and fails
if the value's own self-description fails. -/
def line_fmt_tuple (level : Int) (label : Option String) (value : Option SampleObj) :
    Option LineEntry :=
  match value with
  | none => some ⟨level, label, none⟩
  | some (SampleObj.text s) => some ⟨level, label, some s⟩
  | some (SampleObj.data bytes) => some ⟨level, label, some (String.join (bytes.map hexOctet))⟩
  | some SampleObj.unprintable => none

/-- Modelled from the spec: `fmt_label(level, label)`, defined outside this
header, builds "a label-only line entry (heading with no value)". -/
def fmt_label (level : Int) (label : Option String) : Option LineEntry :=
  some ⟨level, label, none⟩

/-- A concrete environment: the helpers as the specification describes
them, byte buffers rendered by `obj_to_hex`, a text object describing itself
by a heading and a value line, and an accumulator that can grow by exactly
the entries `grow` accepts. -/
def sampleEnv (grow : List LineEntry → LineEntry → Bool) : Env SampleObj where
  line_fmt_tuple := line_fmt_tuple
  fmt_label := fmt_label
  list_can_grow := grow
  format_lines := fun obj level =>
    match obj with
    | SampleObj.text s => some [⟨level, some "Object", none⟩, ⟨level, none, some s⟩]
    | _ => none
  obj_to_hex := fun obj W sep =>
    match obj with
    | some (SampleObj.data bytes) => some ((obj_to_hex bytes W.toNat sep).map SampleObj.text)
    | _ => none
  secitem_integer_format_lines := fun obj level =>
    match obj with
    | SampleObj.data bytes =>
      some ((obj_to_hex bytes 16 ":").map (fun line => ⟨level, none, some line⟩))
    | _ => none

/-- The accumulator always grows. -/
def growAlways : List LineEntry → LineEntry → Bool := fun _ _ => true

/-- The accumulator never grows (resource exhaustion). -/
def growNever : List LineEntry → LineEntry → Bool := fun _ _ => false

/-- The accumulator has room for `n` entries and cannot grow beyond them. -/
def growUpTo (n : Nat) : List LineEntry → LineEntry → Bool := fun l _ => decide (l.length < n)

/-- The accumulator refuses exactly the entries at level `0`. -/
def growUnlessLevelZero : List LineEntry → LineEntry → Bool := fun _ x => decide (x.level ≠ 0)

/-! ## Lemmas on the primitives and the loops -/

theorem PyList_Append_ok {Obj : Type} (env : Env Obj) (l : List LineEntry) (x : LineEntry)
    (h : env.list_can_grow l x = true) : PyList_Append env l x = (l ++ [x], 0) := by
  simp [PyList_Append, h]

theorem PyList_Append_err {Obj : Type} (env : Env Obj) (l : List LineEntry) (x : LineEntry)
    (h : env.list_can_grow l x = false) : PyList_Append env l x = (l, -1) := by
  simp [PyList_Append, h]

theorem FMT_OBJ_AND_APPEND_none {Obj : Type} (env : Env Obj) (dst : List LineEntry)
    (label : Option String) (v : Option Obj) (level : Int)
    (h : env.line_fmt_tuple level label v = none) :
    FMT_OBJ_AND_APPEND env dst label v level = (Ctl.fail, dst) := by
  simp [FMT_OBJ_AND_APPEND, h]

theorem FMT_OBJ_AND_APPEND_some {Obj : Type} (env : Env Obj) (dst : List LineEntry)
    (label : Option String) (v : Option Obj) (level : Int) (e : LineEntry)
    (h : env.line_fmt_tuple level label v = some e) :
    FMT_OBJ_AND_APPEND env dst label v level =
      if env.list_can_grow dst e then (Ctl.next, dst ++ [e]) else (Ctl.fail, dst) := by
  by_cases hg : env.list_can_grow dst e = true
  · simp [FMT_OBJ_AND_APPEND, h, PyList_Append, hg]
  · simp [FMT_OBJ_AND_APPEND, h, PyList_Append, hg]

theorem FMT_LABEL_AND_APPEND_some {Obj : Type} (env : Env Obj) (dst : List LineEntry)
    (label : Option String) (level : Int) (e : LineEntry)
    (h : env.fmt_label level label = some e) :
    FMT_LABEL_AND_APPEND env dst label level =
      if env.list_can_grow dst e then (Ctl.next, dst ++ [e]) else (Ctl.fail, dst) := by
  by_cases hg : env.list_can_grow dst e = true
  · simp [FMT_LABEL_AND_APPEND, h, PyList_Append, hg]
  · simp [FMT_LABEL_AND_APPEND, h, PyList_Append, hg]

/-- When each append succeeds, the loop of `APPEND_LINE_TUPLES_AND_CLEAR`
appends the whole source list. -/
theorem appendLineTuplesLoop_ok {Obj : Type} (env : Env Obj) :
    ∀ (src dst : List LineEntry),
      (∀ k (h : k < src.length), env.list_can_grow (dst ++ src.take k) (src.get ⟨k, h⟩) = true) →
      appendLineTuplesLoop env dst src = dst ++ src
  | [], dst, _ => by simp [appendLineTuplesLoop]
  | x :: rest, dst, hgrow => by
    have h0 : env.list_can_grow dst x = true := by
      have := hgrow 0 (by simp)
      simpa using this
    have hrest : ∀ k (h : k < rest.length),
        env.list_can_grow ((dst ++ [x]) ++ rest.take k) (rest.get ⟨k, h⟩) = true := by
      intro k h
      have := hgrow (k + 1) (by simpa using h)
      simpa using this
    rw [appendLineTuplesLoop, PyList_Append_ok env dst x h0]
    simp [appendLineTuplesLoop_ok env rest (dst ++ [x]) hrest]

/-- When each conversion and each append succeeds, the loop of
`APPEND_LINES_AND_CLEAR` runs to its end, having appended one entry per
item. -/
theorem appendLinesLoop_ok {Obj : Type} (env : Env Obj) (level : Int) :
    ∀ (items : List Obj) (entries dst : List LineEntry) (conv : List Obj),
      items.map (fun it => env.line_fmt_tuple level none (some it)) = entries.map some →
      (∀ k (h : k < entries.length),
        env.list_can_grow (dst ++ entries.take k) (entries.get ⟨k, h⟩) = true) →
      appendLinesLoop env level dst conv items = (Ctl.next, dst ++ entries, conv ++ items)
  | [], entries, dst, conv, hconv, _ => by
    cases entries with
    | nil => simp [appendLinesLoop]
    | cons e es => simp at hconv
  | it :: rest, entries, dst, conv, hconv, hgrow => by
    cases entries with
    | nil => simp at hconv
    | cons e es =>
      simp only [List.map_cons, List.cons.injEq] at hconv
      obtain ⟨he, hrest⟩ := hconv
      have h0 : env.list_can_grow dst e = true := by
        have := hgrow 0 (by simp)
        simpa using this
      have hg : ∀ k (h : k < es.length),
          env.list_can_grow ((dst ++ [e]) ++ es.take k) (es.get ⟨k, h⟩) = true := by
        intro k h
        have := hgrow (k + 1) (by simpa using h)
        simpa using this
      rw [appendLinesLoop, FMT_OBJ_AND_APPEND_some env dst none (some it) level e he]
      simp only [h0, if_true]
      rw [appendLinesLoop_ok env level rest es (dst ++ [e]) (conv ++ [it]) hrest hg]
      simp

/-- When the conversions of `pre` and the appends of their entries succeed
and the conversion of the next item `bad` fails, the loop of
`APPEND_LINES_AND_CLEAR` stops at `bad`. -/
theorem appendLinesLoop_conv_fail {Obj : Type} (env : Env Obj) (level : Int) :
    ∀ (pre : List Obj) (entries dst : List LineEntry) (conv : List Obj) (bad : Obj)
      (post : List Obj),
      pre.map (fun it => env.line_fmt_tuple level none (some it)) = entries.map some →
      env.line_fmt_tuple level none (some bad) = none →
      (∀ k (h : k < entries.length),
        env.list_can_grow (dst ++ entries.take k) (entries.get ⟨k, h⟩) = true) →
      appendLinesLoop env level dst conv (pre ++ bad :: post) =
        (Ctl.fail, dst ++ entries, conv ++ pre ++ [bad])
  | [], entries, dst, conv, bad, post, hconv, hbad, _ => by
    cases entries with
    | nil =>
      simp [appendLinesLoop, FMT_OBJ_AND_APPEND_none env dst none (some bad) level hbad]
    | cons e es => simp at hconv
  | it :: rest, entries, dst, conv, bad, post, hconv, hbad, hgrow => by
    cases entries with
    | nil => simp at hconv
    | cons e es =>
      simp only [List.map_cons, List.cons.injEq] at hconv
      obtain ⟨he, hrest⟩ := hconv
      have h0 : env.list_can_grow dst e = true := by
        have := hgrow 0 (by simp)
        simpa using this
      have hg : ∀ k (h : k < es.length),
          env.list_can_grow ((dst ++ [e]) ++ es.take k) (es.get ⟨k, h⟩) = true := by
        intro k h
        have := hgrow (k + 1) (by simpa using h)
        simpa using this
      rw [List.cons_append, appendLinesLoop,
        FMT_OBJ_AND_APPEND_some env dst none (some it) level e he]
      simp only [h0, if_true]
      rw [appendLinesLoop_conv_fail env level rest es (dst ++ [e]) (conv ++ [it]) bad post
        hrest hbad hg]
      simp

/-- One line more for the first `W` bytes: the rounded-up quotient of a
non-zero length. -/
theorem ceil_div_step (n W : Nat) (hW : 1 ≤ W) (hn : 1 ≤ n) :
    (n + W - 1) / W = (n - W + W - 1) / W + 1 := by
  by_cases h : W ≤ n
  · have h1 : n + W - 1 = (n - W + W - 1) + W := by omega
    rw [h1, Nat.add_div_right _ (by omega : 0 < W)]
  · have h1 : n - W + W - 1 = W - 1 := by omega
    rw [h1, Nat.div_eq_of_lt (by omega : W - 1 < W)]
    have h2 : n + W - 1 = (n - 1) + W := by omega
    rw [h2, Nat.add_div_right _ (by omega : 0 < W), Nat.div_eq_of_lt (by omega : n - 1 < W)]

/-- With enough bound, `octetChunks` yields the rounded-up quotient of the
length by `W` many lines. -/
theorem octetChunks_length (W : Nat) (hW : 1 ≤ W) :
    ∀ (fuel : Nat) (l : List (Fin 256)), l.length ≤ fuel →
      (octetChunks W fuel l).length = (l.length + W - 1) / W
  | 0, l, h => by
    have : l.length = 0 := by omega
    simp [octetChunks, this, Nat.div_eq_of_lt (by omega : W - 1 < W)]
  | fuel + 1, [], _ => by
    simp [octetChunks, Nat.div_eq_of_lt (by omega : W - 1 < W)]
  | fuel + 1, b :: bs, h => by
    have hlen : ((b :: bs).drop W).length ≤ fuel := by
      simp only [List.length_drop, List.length_cons] at h ⊢
      omega
    rw [octetChunks, List.length_cons, octetChunks_length W hW fuel _ hlen, List.length_drop]
    exact (ceil_div_step (b :: bs).length W hW (by simp)).symm

/-- Line `i` of `octetChunks` holds the bytes from offset `i * W`, at most
`W` of them. -/
theorem octetChunks_getElem? (W : Nat) (hW : 1 ≤ W) :
    ∀ (fuel : Nat) (l : List (Fin 256)) (i : Nat), l.length ≤ fuel →
      i < (octetChunks W fuel l).length →
      (octetChunks W fuel l)[i]? = some ((l.drop (i * W)).take W)
  | 0, l, i, _, hi => by simp [octetChunks] at hi
  | fuel + 1, [], i, _, hi => by simp [octetChunks] at hi
  | fuel + 1, b :: bs, 0, _, _ => by simp [octetChunks]
  | fuel + 1, b :: bs, i + 1, h, hi => by
    have hlen : ((b :: bs).drop W).length ≤ fuel := by
      simp only [List.length_drop, List.length_cons] at h ⊢
      omega
    have hi2 : i < (octetChunks W fuel ((b :: bs).drop W)).length := by
      rw [octetChunks, List.length_cons] at hi
      omega
    rw [octetChunks, List.getElem?_cons_succ,
      octetChunks_getElem? W hW fuel _ i hlen hi2, List.drop_drop]
    have : W + i * W = (i + 1) * W := by ring
    rw [this]

/-- Every line before the last starts at least `W` bytes before the end. -/
theorem ceil_div_full (len W i : Nat) (hi : i + 1 < (len + W - 1) / W) :
    i * W + W ≤ len := by
  have h1 : (len + W - 1) / W * W ≤ len + W - 1 := Nat.div_mul_le_self _ _
  have h2 : (i + 2) * W ≤ (len + W - 1) / W * W := Nat.mul_le_mul_right W (by omega)
  have h3 : (i + 2) * W = i * W + W + W := by ring
  have hW : 1 ≤ W := by
    rcases Nat.eq_zero_or_pos W with h | h
    · subst h
      simp at hi
    · exact h
  omega

/-- The number of bytes left for the last line. -/
theorem ceil_div_last (len W i : Nat) (hW : 1 ≤ W) (hi : i + 1 = (len + W - 1) / W) :
    min W (len - i * W) = if len % W = 0 then W else len % W := by
  have hdm : W * (len / W) + len % W = len := Nat.div_add_mod len W
  have hr : len % W < W := Nat.mod_lt _ (by omega)
  have hq : (len + W - 1) / W = len / W + (len % W + W - 1) / W := by
    have : len + W - 1 = W * (len / W) + (len % W + W - 1) := by omega
    rw [this, Nat.mul_add_div (by omega : 0 < W)]
  by_cases h0 : len % W = 0
  · have hx : (len % W + W - 1) / W = 0 := Nat.div_eq_of_lt (by omega)
    have hiq : i + 1 = len / W := by omega
    have he : W * (len / W) = i * W + W := by
      rw [← hiq]
      ring
    simp only [h0, if_true]
    omega
  · have hx : (len % W + W - 1) / W = 1 := by
      have : len % W + W - 1 = (len % W - 1) + W := by omega
      rw [this, Nat.add_div_right _ (by omega : 0 < W), Nat.div_eq_of_lt (by omega)]
    have hiq : i = len / W := by omega
    have he : W * (len / W) = i * W := by
      rw [← hiq]
      ring
    simp only [h0, if_false]
    omega

/-- The number of lines of `hex_groups`. -/
theorem hex_groups_length (B : List (Fin 256)) (W : Nat) (hW : 1 ≤ W) :
    (hex_groups B W).length = (B.length + W - 1) / W := by
  simp [hex_groups, octetChunks_length W hW B.length B (Nat.le_refl _)]

/-- The octet groups of line `i`. -/
theorem hex_groups_getElem? (B : List (Fin 256)) (W : Nat) (hW : 1 ≤ W) (i : Nat)
    (hi : i < (hex_groups B W).length) :
    (hex_groups B W)[i]? = some (((B.drop (i * W)).take W).map hexOctet) := by
  have hi2 : i < (octetChunks W B.length B).length := by
    simpa [hex_groups] using hi
  simp [hex_groups, octetChunks_getElem? W hW B.length B i (Nat.le_refl _) hi2]

/-- An octet group has two characters. -/
theorem hexOctet_length (b : Fin 256) : (hexOctet b).length = 2 := rfl

/-- In the sample environment with an accumulator that always grows,
`APPEND_OBJ_TO_HEX_LINES_AND_CLEAR` on a byte buffer appends one unlabeled
entry per line of `obj_to_hex` at the default width and separator. -/
theorem sample_append_obj_to_hex_lines (dst : List LineEntry) (B : List (Fin 256))
    (level : Int) :
    APPEND_OBJ_TO_HEX_LINES_AND_CLEAR (sampleEnv growAlways) dst (some (SampleObj.data B))
        level =
      ⟨Ctl.next, dst ++ (obj_to_hex B 16 ":").map (fun line => ⟨level, none, some line⟩),
        none⟩ := by
  have hhex : (sampleEnv growAlways).obj_to_hex (some (SampleObj.data B))
      OCTETS_PER_LINE_DEFAULT HEX_SEPARATOR_DEFAULT =
      some ((obj_to_hex B 16 ":").map SampleObj.text) := rfl
  have hloop := appendLinesLoop_ok (sampleEnv growAlways) level
    ((obj_to_hex B 16 ":").map SampleObj.text)
    ((obj_to_hex B 16 ":").map (fun line => ⟨level, none, some line⟩)) dst []
    (by simp [List.map_map, sampleEnv, line_fmt_tuple, Function.comp_def])
    (fun _ _ => rfl)
  simp [APPEND_OBJ_TO_HEX_LINES_AND_CLEAR, hhex, APPEND_LINES_AND_CLEAR, hloop]

/-- Below `INT_MAX` the C `int` sum `level+1` is the integer `level + 1`. -/
theorem int_add_one_of_lt (level : Int) (hmin : INT_MIN ≤ level) (hmax : level < INT_MAX) :
    int_add level 1 = level + 1 := by
  unfold INT_MIN at hmin
  unfold INT_MAX at hmax
  unfold int_add
  omega

/-! ## Claims -/

/-- C1. When every append succeeds, `APPEND_LINE_TUPLES_AND_CLEAR(dst, src)`
with a non-null `src` falls through with `dst` equal to `old(dst) ++ src`,
the entries of `src` in their order, and with the `src` variable cleared;
with a null `src` it leaves `dst` as it was. -/
theorem append_line_tuples_and_clear_extends {Obj : Type} (env : Env Obj)
    (dst src : List LineEntry)
    (hgrow : ∀ k (h : k < src.length),
      env.list_can_grow (dst ++ src.take k) (src.get ⟨k, h⟩) = true) :
    APPEND_LINE_TUPLES_AND_CLEAR env dst (some src) = ⟨Ctl.next, dst ++ src, none⟩ ∧
    APPEND_LINE_TUPLES_AND_CLEAR env dst none = ⟨Ctl.next, dst, none⟩ := by
  constructor
  · simp [APPEND_LINE_TUPLES_AND_CLEAR, appendLineTuplesLoop_ok env src dst hgrow]
  · rfl

/-- Witness for C1: an accumulator of one entry extended by two entries. -/
theorem append_line_tuples_and_clear_extends_witness :
    APPEND_LINE_TUPLES_AND_CLEAR (sampleEnv growAlways) [⟨0, some "Version", some "3"⟩]
        (some [⟨1, some "Serial", none⟩, ⟨2, none, some "0a"⟩]) =
      ⟨Ctl.next,
        [⟨0, some "Version", some "3"⟩, ⟨1, some "Serial", none⟩, ⟨2, none, some "0a"⟩],
        none⟩ ∧
    APPEND_LINE_TUPLES_AND_CLEAR (sampleEnv growAlways) [⟨0, some "Version", some "3"⟩] none =
      ⟨Ctl.next, [⟨0, some "Version", some "3"⟩], none⟩ :=
  append_line_tuples_and_clear_extends (sampleEnv growAlways) [⟨0, some "Version", some "3"⟩]
    [⟨1, some "Serial", none⟩, ⟨2, none, some "0a"⟩] (fun _ _ => rfl)

/-- C2. If the nested object's `format_lines(level)` call fails, then
`CALL_FORMAT_LINES_AND_APPEND(dst, obj, level)` jumps to `fail` and `dst`
holds exactly the entries it held before. -/
theorem call_format_lines_and_append_failure {Obj : Type} (env : Env Obj)
    (dst : List LineEntry) (obj : Obj) (level : Int)
    (hfail : env.format_lines obj level = none) :
    CALL_FORMAT_LINES_AND_APPEND env dst obj level = (Ctl.fail, dst) := by
  simp [CALL_FORMAT_LINES_AND_APPEND, hfail]

/-- Witness for C2: a nested object whose `format_lines` fails. -/
theorem call_format_lines_and_append_failure_witness :
    (sampleEnv growAlways).format_lines SampleObj.unprintable 1 = none ∧
    CALL_FORMAT_LINES_AND_APPEND (sampleEnv growAlways) [⟨0, some "Version", some "3"⟩]
        SampleObj.unprintable 1 =
      (Ctl.fail, [⟨0, some "Version", some "3"⟩]) :=
  ⟨rfl, call_format_lines_and_append_failure (sampleEnv growAlways)
    [⟨0, some "Version", some "3"⟩] SampleObj.unprintable 1 rfl⟩

/-- C3. When `line_fmt_tuple(level, NULL, item)` succeeds for every item
(giving `entries`) and every append succeeds, `APPEND_LINES_AND_CLEAR(dst,
items, level)` falls through with `dst` equal to `old(dst)` followed by the
entries, one per item in the order of the items, so that the length of
`dst` grows by the number of items; the `items` variable is cleared and
every item was converted. Each entry is the one `line_fmt_tuple` built for
level `level` and a `NULL` label: if `line_fmt_tuple` gives its result the
level and label it is passed, each entry is unlabeled and at `level`. -/
theorem append_lines_and_clear_success {Obj : Type} (env : Env Obj) (dst : List LineEntry)
    (items : List Obj) (level : Int) (entries : List LineEntry)
    (hconv : items.map (fun it => env.line_fmt_tuple level none (some it)) = entries.map some)
    (hgrow : ∀ k (h : k < entries.length),
      env.list_can_grow (dst ++ entries.take k) (entries.get ⟨k, h⟩) = true) :
    APPEND_LINES_AND_CLEAR env dst (some items) level = ⟨Ctl.next, dst ++ entries, none, items⟩ ∧
    (APPEND_LINES_AND_CLEAR env dst (some items) level).dst_fmt_tuples.length =
      dst.length + items.length ∧
    ((∀ lv lb v e, env.line_fmt_tuple lv lb v = some e → e.level = lv ∧ e.label = lb) →
      ∀ e ∈ entries, e.level = level ∧ e.label = none) := by
  have hlen : entries.length = items.length := by
    have := congrArg List.length hconv
    simpa using this.symm
  have hrun : APPEND_LINES_AND_CLEAR env dst (some items) level =
      ⟨Ctl.next, dst ++ entries, none, items⟩ := by
    simp [APPEND_LINES_AND_CLEAR, appendLinesLoop_ok env level items entries dst [] hconv hgrow]
  refine ⟨hrun, ?_, ?_⟩
  · rw [hrun]
    simp [hlen]
  · intro hcontract e he
    have hmem : some e ∈ items.map (fun it => env.line_fmt_tuple level none (some it)) := by
      rw [hconv]
      exact List.mem_map_of_mem some he
    obtain ⟨it, _, hit⟩ := List.mem_map.mp hmem
    exact hcontract level none (some it) e hit

/-- Witness for C3: two text lines appended at level 2. -/
theorem append_lines_and_clear_success_witness :
    APPEND_LINES_AND_CLEAR (sampleEnv growAlways) [⟨1, some "Modulus", none⟩]
        (some [SampleObj.text "01:02", SampleObj.text "03"]) 2 =
      ⟨Ctl.next, [⟨1, some "Modulus", none⟩, ⟨2, none, some "01:02"⟩, ⟨2, none, some "03"⟩],
        none, [SampleObj.text "01:02", SampleObj.text "03"]⟩ ∧
    (APPEND_LINES_AND_CLEAR (sampleEnv growAlways) [⟨1, some "Modulus", none⟩]
        (some [SampleObj.text "01:02", SampleObj.text "03"]) 2).dst_fmt_tuples.length = 1 + 2 ∧
    ((∀ lv lb v e, (sampleEnv growAlways).line_fmt_tuple lv lb v = some e →
        e.level = lv ∧ e.label = lb) →
      ∀ e ∈ [(⟨2, none, some "01:02"⟩ : LineEntry), ⟨2, none, some "03"⟩],
        e.level = 2 ∧ e.label = none) :=
  append_lines_and_clear_success (sampleEnv growAlways) [⟨1, some "Modulus", none⟩]
    [SampleObj.text "01:02", SampleObj.text "03"] 2
    [⟨2, none, some "01:02"⟩, ⟨2, none, some "03"⟩] rfl (fun _ _ => rfl)

/-- C4, as stated, fails: with an accumulator that cannot grow, the item at
index 1 is the first whose conversion fails, yet the macro stops at index 0
on the failed append and `dst` is not `old(dst)` followed by the entry of
item 0. -/
theorem append_lines_and_clear_first_failure_counterexample :
    (sampleEnv growNever).line_fmt_tuple 0 none (some (SampleObj.text "01")) =
      some ⟨0, none, some "01"⟩ ∧
    (sampleEnv growNever).line_fmt_tuple 0 none (some SampleObj.unprintable) = none ∧
    (APPEND_LINES_AND_CLEAR (sampleEnv growNever) []
        (some [SampleObj.text "01", SampleObj.unprintable]) 0).ctl = Ctl.fail ∧
    (APPEND_LINES_AND_CLEAR (sampleEnv growNever) []
        (some [SampleObj.text "01", SampleObj.unprintable]) 0).dst_fmt_tuples ≠
      [] ++ [⟨0, none, some "01"⟩] := by
  decide

/-- C4, amended. When the item at index `k` is the first whose conversion
by `line_fmt_tuple(level, NULL, item)` fails (the items before it convert
to `entries`) and the appends of these entries succeed,
`APPEND_LINES_AND_CLEAR(dst, items, level)` jumps to `fail`, has converted
exactly the items up to index `k` and none after it, leaves `dst` equal to
`old(dst)` followed by the entries of `items[0..k)` in order, and does not
clear the `items` variable. -/
theorem append_lines_and_clear_first_failure {Obj : Type} (env : Env Obj)
    (dst : List LineEntry) (items : List Obj) (level : Int) (k : Nat)
    (entries : List LineEntry) (hk : k < items.length)
    (hconv : (items.take k).map (fun it => env.line_fmt_tuple level none (some it)) =
      entries.map some)
    (hfail : env.line_fmt_tuple level none (some (items.get ⟨k, hk⟩)) = none)
    (hgrow : ∀ j (h : j < entries.length),
      env.list_can_grow (dst ++ entries.take j) (entries.get ⟨j, h⟩) = true) :
    APPEND_LINES_AND_CLEAR env dst (some items) level =
      ⟨Ctl.fail, dst ++ entries, some items, items.take (k + 1)⟩ ∧
    entries.length = k := by
  have hsplit : items = items.take k ++ items.get ⟨k, hk⟩ :: items.drop (k + 1) := by
    simp only [List.get_eq_getElem, List.getElem_cons_drop, List.take_append_drop]
  have htake : items.take (k + 1) = items.take k ++ [items.get ⟨k, hk⟩] := by
    rw [List.get_eq_getElem, List.take_succ, List.getElem?_eq_getElem hk]
    rfl
  have hloop := appendLinesLoop_conv_fail env level (items.take k) entries dst []
    (items.get ⟨k, hk⟩) (items.drop (k + 1)) hconv hfail hgrow
  rw [← hsplit] at hloop
  constructor
  · simp only [APPEND_LINES_AND_CLEAR, hloop, htake, List.nil_append]
  · have := congrArg List.length hconv
    simp only [List.length_map, List.length_take] at this
    omega

/-- Witness for C4 (amended): the second of three items is unprintable. -/
theorem append_lines_and_clear_first_failure_witness :
    APPEND_LINES_AND_CLEAR (sampleEnv growAlways) [⟨1, some "Modulus", none⟩]
        (some [SampleObj.text "01:02", SampleObj.unprintable, SampleObj.text "03"]) 2 =
      ⟨Ctl.fail, [⟨1, some "Modulus", none⟩, ⟨2, none, some "01:02"⟩],
        some [SampleObj.text "01:02", SampleObj.unprintable, SampleObj.text "03"],
        [SampleObj.text "01:02", SampleObj.unprintable]⟩ ∧
    [(⟨2, none, some "01:02"⟩ : LineEntry)].length = 1 :=
  append_lines_and_clear_first_failure (sampleEnv growAlways) [⟨1, some "Modulus", none⟩]
    [SampleObj.text "01:02", SampleObj.unprintable, SampleObj.text "03"] 2 1
    [⟨2, none, some "01:02"⟩] (by decide) rfl rfl (fun _ _ => rfl)

/-- C5. `FMT_OBJ_AND_APPEND(dst, label, value, level)` either falls through
with `dst` equal to `old(dst)` followed by exactly one entry, the result of
`line_fmt_tuple(level, label, value)`, or jumps to `fail` with `dst`
unchanged. It fails whenever `line_fmt_tuple` fails, and then `dst` is
unchanged; when `line_fmt_tuple` succeeds it fails exactly when the append
fails. -/
theorem fmt_obj_and_append_outcome {Obj : Type} (env : Env Obj) (dst : List LineEntry)
    (label : Option String) (value : Option Obj) (level : Int) :
    ((∃ e, env.line_fmt_tuple level label value = some e ∧
        FMT_OBJ_AND_APPEND env dst label value level = (Ctl.next, dst ++ [e])) ∨
      FMT_OBJ_AND_APPEND env dst label value level = (Ctl.fail, dst)) ∧
    (env.line_fmt_tuple level label value = none →
      FMT_OBJ_AND_APPEND env dst label value level = (Ctl.fail, dst)) ∧
    (∀ e, env.line_fmt_tuple level label value = some e →
      FMT_OBJ_AND_APPEND env dst label value level =
        if env.list_can_grow dst e then (Ctl.next, dst ++ [e]) else (Ctl.fail, dst)) := by
  refine ⟨?_, FMT_OBJ_AND_APPEND_none env dst label value level,
    fun e he => FMT_OBJ_AND_APPEND_some env dst label value level e he⟩
  cases hfmt : env.line_fmt_tuple level label value with
  | none => exact Or.inr (FMT_OBJ_AND_APPEND_none env dst label value level hfmt)
  | some e =>
    have hrun := FMT_OBJ_AND_APPEND_some env dst label value level e hfmt
    by_cases hg : env.list_can_grow dst e = true
    · left
      exact ⟨e, rfl, by simpa [hg] using hrun⟩
    · right
      simpa [hg] using hrun

/-- Witness for C5: a printable value is appended, an unprintable one makes
the macro fail with the accumulator unchanged. -/
theorem fmt_obj_and_append_outcome_witness :
    FMT_OBJ_AND_APPEND (sampleEnv growAlways) [⟨0, some "Version", some "3"⟩] (some "Serial")
        (some SampleObj.unprintable) 0 =
      (Ctl.fail, [⟨0, some "Version", some "3"⟩]) ∧
    FMT_OBJ_AND_APPEND (sampleEnv growAlways) [⟨0, some "Version", some "3"⟩] (some "Serial")
        (some (SampleObj.text "0a")) 0 =
      (Ctl.next, [⟨0, some "Version", some "3"⟩, ⟨0, some "Serial", some "0a"⟩]) :=
  ⟨(fmt_obj_and_append_outcome (sampleEnv growAlways) [⟨0, some "Version", some "3"⟩]
      (some "Serial") (some SampleObj.unprintable) 0).2.1 rfl,
    (fmt_obj_and_append_outcome (sampleEnv growAlways) [⟨0, some "Version", some "3"⟩]
      (some "Serial") (some (SampleObj.text "0a")) 0).2.2 ⟨0, some "Serial", some "0a"⟩ rfl⟩

/-- C7, as stated, fails. At `level = INT_MAX`, every call and append
succeeding and the integer formatter emitting its entries at the level it
is given, the `level+1` of line 149 wraps: the formatter is invoked at
`INT_MIN` and the nested entry's level is below the heading's. And at
level 1, with an accumulator that has room for one entry only, the macro
falls through (a success) with the heading appended and the nested entry
lost. -/
theorem fmt_sec_int_obj_append_levels_counterexample :
    (∀ o lv ls, (sampleEnv growAlways).secitem_integer_format_lines o lv = some ls →
      ∀ x ∈ ls, x.level = lv) ∧
    int_add 2147483647 1 = -2147483648 ∧
    FMT_SEC_INT_OBJ_APPEND_AND_CLEAR (sampleEnv growAlways) [] (some "Modulus")
        (SampleObj.data [1, 2, 255]) 2147483647 =
      ⟨Ctl.next, [⟨2147483647, some "Modulus", none⟩, ⟨-2147483648, none, some "01:02:ff"⟩],
        none⟩ ∧
    ¬ ((2147483647 : Int) < (⟨-2147483648, none, some "01:02:ff"⟩ : LineEntry).level) ∧
    (sampleEnv (growUpTo 1)).secitem_integer_format_lines (SampleObj.data [1, 2, 255]) (1 + 1) =
      some [⟨2, none, some "01:02:ff"⟩] ∧
    FMT_SEC_INT_OBJ_APPEND_AND_CLEAR (sampleEnv (growUpTo 1)) [] (some "Modulus")
        (SampleObj.data [1, 2, 255]) 1 =
      ⟨Ctl.next, [⟨1, some "Modulus", none⟩], none⟩ ∧
    (FMT_SEC_INT_OBJ_APPEND_AND_CLEAR (sampleEnv (growUpTo 1)) [] (some "Modulus")
        (SampleObj.data [1, 2, 255]) 1).dst_fmt_tuples ≠
      [] ++ (⟨1, some "Modulus", none⟩ : LineEntry) :: [⟨2, none, some "01:02:ff"⟩] := by
  refine ⟨?_, by decide, rfl, by decide, by decide, rfl, by decide⟩
  intro o lv ls hls x hx
  cases o with
  | data bytes =>
    simp only [sampleEnv, Option.some.injEq] at hls
    rw [← hls] at hx
    simp only [List.mem_map] at hx
    obtain ⟨line, _, rfl⟩ := hx
    rfl
  | text t => simp [sampleEnv] at hls
  | unprintable => simp [sampleEnv] at hls

/-- C7, amended. For a `level` with `INT_MIN <= level < INT_MAX`, a
`FMT_SEC_INT_OBJ_APPEND_AND_CLEAR(dst, label, obj, level)` in which
`fmt_label(level, label)` returns the heading, the integer formatter
returns the entries `nested`, and every append succeeds, invokes the
formatter at exactly `level+1` and falls through with `dst` equal to
`old(dst)` followed by the heading and then all of `nested` in order, and
with `obj` cleared. The heading is the label-only entry at exactly `level`
(`fmt_label` giving its result the level and label it is passed and no
value); and provided the integer formatter emits entries at the level it is
given, every nested entry has the heading's level plus one, strictly
greater than the heading's. -/
theorem fmt_sec_int_obj_append_levels {Obj : Type} (env : Env Obj) (dst : List LineEntry)
    (label : Option String) (obj : Obj) (level : Int) (heading : LineEntry)
    (nested : List LineEntry)
    (hmin : INT_MIN ≤ level) (hmax : level < INT_MAX)
    (hlab : env.fmt_label level label = some heading)
    (hcontract : ∀ lv lb e, env.fmt_label lv lb = some e →
      e.level = lv ∧ e.label = lb ∧ e.value = none)
    (hint : env.secitem_integer_format_lines obj (level + 1) = some nested)
    (hgrow : ∀ k (h : k < (heading :: nested).length),
      env.list_can_grow (dst ++ (heading :: nested).take k)
        ((heading :: nested).get ⟨k, h⟩) = true) :
    int_add level 1 = level + 1 ∧
    FMT_SEC_INT_OBJ_APPEND_AND_CLEAR env dst label obj level =
      ⟨Ctl.next, dst ++ heading :: nested, none⟩ ∧
    heading.level = level ∧ heading.label = label ∧ heading.value = none ∧
    ((∀ o lv ls, env.secitem_integer_format_lines o lv = some ls → ∀ x ∈ ls, x.level = lv) →
      ∀ x ∈ nested, x.level = heading.level + 1 ∧ heading.level < x.level) := by
  obtain ⟨hl, hlb, hv⟩ := hcontract level label heading hlab
  have hadd := int_add_one_of_lt level hmin hmax
  have h0 : env.list_can_grow dst heading = true := by
    have := hgrow 0 (by simp)
    simpa using this
  have hrest : ∀ k (h : k < nested.length),
      env.list_can_grow ((dst ++ [heading]) ++ nested.take k) (nested.get ⟨k, h⟩) = true := by
    intro k h
    have := hgrow (k + 1) (by simpa using h)
    simpa using this
  refine ⟨hadd, ?_, hl, hlb, hv, ?_⟩
  · have hstep : FMT_LABEL_AND_APPEND env dst label level = (Ctl.next, dst ++ [heading]) := by
      rw [FMT_LABEL_AND_APPEND_some env dst label level heading hlab]
      simp [h0]
    simp [FMT_SEC_INT_OBJ_APPEND_AND_CLEAR, hstep, hadd, hint, APPEND_LINE_TUPLES_AND_CLEAR,
      appendLineTuplesLoop_ok env nested (dst ++ [heading]) hrest]
  · intro hfmt x hx
    have hxl : x.level = level + 1 := hfmt obj (level + 1) nested hint x hx
    rw [hxl, hl]
    exact ⟨rfl, by omega⟩

/-- Witness for C7 (amended): a three-byte integer under the heading
"Modulus" at level 1. -/
theorem fmt_sec_int_obj_append_levels_witness :
    int_add 1 1 = 1 + 1 ∧
    FMT_SEC_INT_OBJ_APPEND_AND_CLEAR (sampleEnv growAlways) [⟨0, some "Version", some "3"⟩]
        (some "Modulus") (SampleObj.data [1, 2, 255]) 1 =
      ⟨Ctl.next, [⟨0, some "Version", some "3"⟩] ++
        (⟨1, some "Modulus", none⟩ : LineEntry) :: [⟨2, none, some "01:02:ff"⟩], none⟩ ∧
    (⟨1, some "Modulus", none⟩ : LineEntry).level = 1 ∧
    (⟨1, some "Modulus", none⟩ : LineEntry).label = some "Modulus" ∧
    (⟨1, some "Modulus", none⟩ : LineEntry).value = none ∧
    ((∀ o lv ls, (sampleEnv growAlways).secitem_integer_format_lines o lv = some ls →
        ∀ x ∈ ls, x.level = lv) →
      ∀ x ∈ [(⟨2, none, some "01:02:ff"⟩ : LineEntry)],
        x.level = (⟨1, some "Modulus", none⟩ : LineEntry).level + 1 ∧
        (⟨1, some "Modulus", none⟩ : LineEntry).level < x.level) :=
  fmt_sec_int_obj_append_levels (sampleEnv growAlways) [⟨0, some "Version", some "3"⟩]
    (some "Modulus") (SampleObj.data [1, 2, 255]) 1 ⟨1, some "Modulus", none⟩
    [⟨2, none, some "01:02:ff"⟩] (by decide) (by decide) rfl
    (by
      intro lv lb e he
      simp only [sampleEnv, fmt_label, Option.some.injEq] at he
      rw [← he]
      exact ⟨rfl, rfl, rfl⟩)
    (by decide) (fun _ _ => rfl)

/-- C8 fails on the code. `APPEND_LINE_TUPLES_AND_CLEAR` never jumps to
`fail`, whatever its appends return. With an accumulator that cannot grow,
both appends of a two-entry source fail (`-1`) and the macro still clears
the source and completes as a success, with nothing appended; with an
accumulator that refuses only the first entry, the loop goes on to append
the second entry and the macro completes as a success with the first entry
missing. -/
theorem append_line_tuples_and_clear_ignores_append_failure :
    (∀ (env : Env SampleObj) (dst : List LineEntry) (src : Option (List LineEntry)),
      (APPEND_LINE_TUPLES_AND_CLEAR env dst src).ctl = Ctl.next) ∧
    PyList_Append (sampleEnv growNever) [] ⟨0, some "Version", some "3"⟩ = ([], -1) ∧
    APPEND_LINE_TUPLES_AND_CLEAR (sampleEnv growNever) []
        (some [⟨0, some "Version", some "3"⟩, ⟨1, some "Serial", some "0a"⟩]) =
      ⟨Ctl.next, [], none⟩ ∧
    PyList_Append (sampleEnv growUnlessLevelZero) [] ⟨0, some "Version", some "3"⟩ = ([], -1) ∧
    APPEND_LINE_TUPLES_AND_CLEAR (sampleEnv growUnlessLevelZero) []
        (some [⟨0, some "Version", some "3"⟩, ⟨1, some "Serial", some "0a"⟩]) =
      ⟨Ctl.next, [⟨1, some "Serial", some "0a"⟩], none⟩ := by
  refine ⟨?_, by decide, by decide, by decide, by decide⟩
  intro env dst src
  cases src <;> rfl

/-- C10. `RETURN_COMPARE_RESULT(op, cmp_result)` returns True exactly when
`cmp_result < 0` for `Py_LT`, `<= 0` for `Py_LE`, `== 0` for `Py_EQ`,
`!= 0` for `Py_NE`, `> 0` for `Py_GT`, `>= 0` for `Py_GE`, and False
otherwise, also for every `op` that is none of the six; so `LT`/`GE`,
`LE`/`GT` and `EQ`/`NE` give opposite answers for the same `cmp_result`. -/
theorem return_compare_result_table (op cmp_result : Int) :
    (RETURN_COMPARE_RESULT Py_LT cmp_result = true ↔ cmp_result < 0) ∧
    (RETURN_COMPARE_RESULT Py_LE cmp_result = true ↔ cmp_result ≤ 0) ∧
    (RETURN_COMPARE_RESULT Py_EQ cmp_result = true ↔ cmp_result = 0) ∧
    (RETURN_COMPARE_RESULT Py_NE cmp_result = true ↔ cmp_result ≠ 0) ∧
    (RETURN_COMPARE_RESULT Py_GT cmp_result = true ↔ cmp_result > 0) ∧
    (RETURN_COMPARE_RESULT Py_GE cmp_result = true ↔ cmp_result ≥ 0) ∧
    (RETURN_COMPARE_RESULT op cmp_result = true ↔
      (op = Py_LT ∧ cmp_result < 0) ∨ (op = Py_LE ∧ cmp_result ≤ 0) ∨
      (op = Py_EQ ∧ cmp_result = 0) ∨ (op = Py_NE ∧ cmp_result ≠ 0) ∨
      (op = Py_GT ∧ cmp_result > 0) ∨ (op = Py_GE ∧ cmp_result ≥ 0)) ∧
    ((op ≠ Py_LT ∧ op ≠ Py_LE ∧ op ≠ Py_EQ ∧ op ≠ Py_NE ∧ op ≠ Py_GT ∧ op ≠ Py_GE) →
      RETURN_COMPARE_RESULT op cmp_result = false) ∧
    RETURN_COMPARE_RESULT Py_LT cmp_result = !RETURN_COMPARE_RESULT Py_GE cmp_result ∧
    RETURN_COMPARE_RESULT Py_LE cmp_result = !RETURN_COMPARE_RESULT Py_GT cmp_result ∧
    RETURN_COMPARE_RESULT Py_EQ cmp_result = !RETURN_COMPARE_RESULT Py_NE cmp_result := by
  refine ⟨?_, ?_, ?_, ?_, ?_, ?_, ?_, ?_, ?_, ?_, ?_⟩
  · simp [RETURN_COMPARE_RESULT, Py_LT]
  · simp [RETURN_COMPARE_RESULT, Py_LT, Py_LE]
  · simp [RETURN_COMPARE_RESULT, Py_LT, Py_LE, Py_EQ]
  · simp [RETURN_COMPARE_RESULT, Py_LT, Py_LE, Py_EQ, Py_NE]
  · simp [RETURN_COMPARE_RESULT, Py_LT, Py_LE, Py_EQ, Py_NE, Py_GT]
  · simp [RETURN_COMPARE_RESULT, Py_LT, Py_LE, Py_EQ, Py_NE, Py_GT, Py_GE]
  · unfold RETURN_COMPARE_RESULT Py_LT Py_LE Py_EQ Py_NE Py_GT Py_GE
    split_ifs <;> simp_all
  · rintro ⟨h0, h1, h2, h3, h4, h5⟩
    simp [RETURN_COMPARE_RESULT, h0, h1, h2, h3, h4, h5]
  · by_cases h : cmp_result < 0
    · simp [RETURN_COMPARE_RESULT, Py_LT, Py_LE, Py_EQ, Py_NE, Py_GT, Py_GE, h]
    · simp [RETURN_COMPARE_RESULT, Py_LT, Py_LE, Py_EQ, Py_NE, Py_GT, Py_GE, h]
      omega
  · by_cases h : cmp_result ≤ 0
    · simp [RETURN_COMPARE_RESULT, Py_LT, Py_LE, Py_EQ, Py_NE, Py_GT, Py_GE, h]
    · simp [RETURN_COMPARE_RESULT, Py_LT, Py_LE, Py_EQ, Py_NE, Py_GT, Py_GE, h]
      omega
  · by_cases h : cmp_result = 0 <;>
      simp [RETURN_COMPARE_RESULT, Py_LT, Py_LE, Py_EQ, Py_NE, Py_GT, Py_GE, h]

/-- C9. For every byte sequence `B` and line width `W >= 1`, the hex-dump
renderer returns `ceil(len(B)/W)` lines; line `i` is the separator-joined
list of the two-hex-digit octet groups of the bytes `B[i*W ..]`, at most `W`
of them; every line except the last has exactly `W` groups and the last has
`len(B) mod W` groups, or `W` if `W` divides `len(B)`; the bytes
`[0x01, 0x02, 0x03]` with `W = 2` and separator ":" give `["01:02", "03"]`;
and `APPEND_OBJ_TO_HEX_LINES_AND_CLEAR` invokes the renderer with `W = 16`
and separator ":", appending one unlabeled entry per line. -/
theorem obj_to_hex_line_shape (B : List (Fin 256)) (W : Nat) (sep : String) (hW : 1 ≤ W) :
    (obj_to_hex B W sep).length = (B.length + W - 1) / W ∧
    (hex_groups B W).length = (B.length + W - 1) / W ∧
    (∀ i (h : i < (obj_to_hex B W sep).length) (hg : i < (hex_groups B W).length),
      (obj_to_hex B W sep).get ⟨i, h⟩ = sep.intercalate ((hex_groups B W).get ⟨i, hg⟩)) ∧
    (∀ i (hg : i < (hex_groups B W).length),
      (hex_groups B W).get ⟨i, hg⟩ = ((B.drop (i * W)).take W).map hexOctet) ∧
    (∀ i (hg : i < (hex_groups B W).length), i + 1 < (hex_groups B W).length →
      ((hex_groups B W).get ⟨i, hg⟩).length = W) ∧
    (∀ i (hg : i < (hex_groups B W).length), i + 1 = (hex_groups B W).length →
      ((hex_groups B W).get ⟨i, hg⟩).length = if B.length % W = 0 then W else B.length % W) ∧
    (∀ groups ∈ hex_groups B W, ∀ g ∈ groups, g.length = 2) ∧
    obj_to_hex [1, 2, 3] 2 ":" = ["01:02", "03"] ∧
    OCTETS_PER_LINE_DEFAULT = 16 ∧ HEX_SEPARATOR_DEFAULT = ":" ∧
    (∀ (dst : List LineEntry) (level : Int),
      APPEND_OBJ_TO_HEX_LINES_AND_CLEAR (sampleEnv growAlways) dst (some (SampleObj.data B))
          level =
        ⟨Ctl.next, dst ++ (obj_to_hex B 16 ":").map (fun line => ⟨level, none, some line⟩),
          none⟩) := by
  have hlen := hex_groups_length B W hW
  have hget : ∀ i (hg : i < (hex_groups B W).length),
      (hex_groups B W).get ⟨i, hg⟩ = ((B.drop (i * W)).take W).map hexOctet := by
    intro i hg
    have := hex_groups_getElem? B W hW i hg
    rw [List.getElem?_eq_getElem hg] at this
    simpa using this
  refine ⟨by simp [obj_to_hex, hlen], hlen, ?_, hget, ?_, ?_, ?_, by decide, rfl, rfl,
    fun dst level => sample_append_obj_to_hex_lines dst B level⟩
  · intro i h hg
    simp [obj_to_hex]
  · intro i hg hnext
    rw [hget i hg, hlen] at *
    have := ceil_div_full B.length W i hnext
    simp only [List.length_map, List.length_take, List.length_drop]
    omega
  · intro i hg hlast
    rw [hget i hg]
    rw [hlen] at hlast
    simp only [List.length_map, List.length_take, List.length_drop]
    exact ceil_div_last B.length W i hW hlast
  · intro groups hgroups g hg
    simp only [hex_groups, List.mem_map] at hgroups
    obtain ⟨line, _, rfl⟩ := hgroups
    simp only [List.mem_map] at hg
    obtain ⟨b, _, rfl⟩ := hg
    exact hexOctet_length b

/-- Witness for C9: three bytes at two octets per line give two lines, the
first of two groups and the last of one. -/
theorem obj_to_hex_line_shape_witness :
    1 ≤ 2 ∧ (obj_to_hex [1, 2, 3] 2 ":").length = (3 + 2 - 1) / 2 ∧
    (hex_groups [1, 2, 3] 2).length = (3 + 2 - 1) / 2 :=
  ⟨by decide, (obj_to_hex_line_shape [1, 2, 3] 2 ":" (by decide)).1,
    (obj_to_hex_line_shape [1, 2, 3] 2 ":" (by decide)).2.1⟩

end PyNss
